import Mathlib

/-!
# Verification of the redox-EVA NPU driver bring-up core

Shallow embedding of the driver's bring-up core, translated from the Rust
sources:

* `src/drive/hw_mtl.rs`   — register map, status codes, timing constants
* `src/drive/mmio.rs`     — bounds-checked MMIO region (`read32`/`write32`/…)
* `src/drive/status.rs`   — status monitor and `decode_state`
* `src/drive/dma.rs`      — DMA buffer allocation and `load_firmware`
* `src/drive/inference.rs`— command queue (`new`, `submit`)
* `src/drive/boot.rs`     — boot status poll loop (`trigger_and_wait`)

Machine integers are modelled as `Nat` with explicit wrap-around
(`% 2^64` for `usize`, `% 2^32` for `u32`) where the Rust code can
overflow (release semantics: unchecked arithmetic wraps).  Time is
modelled as the sum of the milliseconds passed to `thread::sleep`: every
other operation is treated as instantaneous, which is the idealisation
the spec's timing table itself uses.  MMIO reads of the firmware status
register are driven by an oracle `status : Nat → Nat` giving the value
returned by the i-th read of that register; reads of registers that do
not influence control flow (boot counter, diagnostic dump reads) are
modelled as having no effect beyond being logged.
-/

namespace EVA

/-- The `usize` modulus (64-bit platform). -/
def USIZE : Nat := 2 ^ 64

/-- The `u32` modulus. -/
def U32 : Nat := 2 ^ 32

-- ============================================================
-- hw_mtl.rs — constants
-- ============================================================

def FW_STATUS_MASK : Nat := 0xFFFF0000
def FW_STATUS_READY : Nat := 0xF00D0000
def FW_STATUS_DEAD : Nat := 0xDEAD0000
def FW_STATUS_CAFE : Nat := 0xCAFE0000
def FW_STATUS_BEEF : Nat := 0xBEEF0000
def FW_STATUS_OBAD : Nat := 0x0BAD0000
def FW_STATUS_FACE : Nat := 0xFACE0000

def FW_MAX_SIZE : Nat := 16 * 1024 * 1024
def DMA_ALIGNMENT : Nat := 4096
def CMD_QUEUE_SIZE : Nat := 256
def CMD_DESC_SIZE : Nat := 64

def POWER_UP_TIMEOUT_MS : Nat := 2000
def FW_BOOT_TIMEOUT_MS : Nat := 5000
def POLL_INTERVAL_MS : Nat := 10
def NUDGE_DELAY_MS : Nat := 300
def NUDGE_MAX_RETRIES : Nat := 5

def IPC_DRBL_TRIGGER : Nat := 0x80000000

-- Register offsets (BAR0-relative) used by the boot loop and diagnostics.
def BUTTRESS_GLOBAL_INT_MASK : Nat := 0x0020
def BUTTRESS_GLOBAL_INT_STS : Nat := 0x0024
def BUTTRESS_VPU_STATUS : Nat := 0x0114
def IPC_HOST_2_DEVICE_DRBL : Nat := 0x73000
def IPC_INT_MASK : Nat := 0x73030
def HOST_SS_GEN_CTRL : Nat := 0x80000
def HOST_SS_FW_STATUS : Nat := 0x80060
def HOST_SS_FW_VERSION : Nat := 0x80064
def HOST_SS_BOOT_COUNT : Nat := 0x80068

-- ============================================================
-- mmio.rs — MmioRegion
-- ============================================================

/-- Model of `MmioRegion`: a byte length and the 32-bit value observed by a
4-byte volatile read at each byte offset.  `mem o` is the `u32` read at
byte offset `o` of the mapped BAR (hardware state at that offset). -/
structure MmioRegion where
  size : Nat
  mem : Nat → Nat

/-- Rust `MmioRegion::read32`.  `offset.checked_add(4)` is `None` exactly when
`offset + 4 ≥ 2^64`; out-of-bounds and overflowing accesses return
`0xFFFF_FFFF` after logging. -/
def MmioRegion.read32 (m : MmioRegion) (offset : Nat) : Nat :=
  if offset + 4 ≥ USIZE then 0xFFFFFFFF
  else if offset + 4 > m.size then 0xFFFFFFFF
  else m.mem offset

/-- Rust `MmioRegion::write32`.  Out-of-bounds and overflowing accesses are
silently dropped (the region is returned unchanged). -/
def MmioRegion.write32 (m : MmioRegion) (offset value : Nat) : MmioRegion :=
  if offset + 4 ≥ USIZE then m
  else if offset + 4 > m.size then m
  else { m with mem := fun o => if o = offset then value % U32 else m.mem o }

/-- Rust `MmioRegion::read64`: two `read32`s, low then high, composed as
`(hi << 32) | lo`.  The Rust source computes the high offset as
`offset + 4` in `usize` arithmetic, which wraps in release builds. -/
def MmioRegion.read64 (m : MmioRegion) (offset : Nat) : Nat :=
  let lo := m.read32 offset
  let hi := m.read32 ((offset + 4) % USIZE)
  hi * 2 ^ 32 + lo

/-- Rust `MmioRegion::write64`: two `write32`s, low half then high half. -/
def MmioRegion.write64 (m : MmioRegion) (offset value : Nat) : MmioRegion :=
  let m1 := m.write32 offset (value % U32)
  m1.write32 ((offset + 4) % USIZE) (value / 2 ^ 32 % U32)

-- ============================================================
-- status.rs — NpuState, StatusMonitor
-- ============================================================

/-- The `NpuState` enum from status.rs. -/
inductive NpuState where
  | poweredOff
  | booting
  | ready
  | dead
  | busy
  | unknown (raw : Nat)
deriving DecidableEq, Repr

/-- Rust `StatusMonitor::decode_state`: match on `raw & FW_STATUS_MASK`. -/
def decode_state (raw : Nat) : NpuState :=
  let code := Nat.land raw FW_STATUS_MASK
  if code = 0 then .poweredOff
  else if code = FW_STATUS_READY then .ready
  else if code = FW_STATUS_DEAD then .dead
  else if code = FW_STATUS_BEEF ∨ code = FW_STATUS_FACE ∨ code = FW_STATUS_CAFE then
    .booting
  else .unknown raw

/-- Host-side state of `StatusMonitor` (the fields `poll` touches;
`Instant` timestamps are dropped, the change list is kept as a count). -/
structure StatusMonitor where
  last_state : NpuState
  state_changes : Nat
deriving DecidableEq, Repr

/-- Rust `StatusMonitor::poll`, with the value read from `HOST_SS_FW_STATUS`
passed in as `raw`: decode, record a change when the state differs from
`last_state`, return the current logical state. -/
def StatusMonitor.poll (mon : StatusMonitor) (raw : Nat) : NpuState × StatusMonitor :=
  let state := decode_state raw
  if state ≠ mon.last_state then
    (state, { last_state := state, state_changes := mon.state_changes + 1 })
  else
    (state, mon)

-- ============================================================
-- dma.rs — DmaBuffer, load_firmware
-- ============================================================

/-- The `DmaError` enum from dma.rs (error payloads carrying `io::Error` or
syscall errors are modelled without payload; none of the claims
distinguish those payloads). -/
inductive DmaError where
  | schemeOpen
  | outOfBounds (offset len capacity : Nat)
  | zeroSize
  | firmwareRead
  | firmwareEmpty
  | firmwareBadMagic
  | firmwareTooLarge (actual max : Nat)
deriving DecidableEq, Repr

/-- Model of `DmaBuffer`: only the byte length is relevant to the claims
(addresses and contents are not constrained by any claim settled here). -/
structure DmaBuffer where
  size : Nat
deriving DecidableEq, Repr

/-- The page-rounding in `DmaBuffer::new`:
`(size + DMA_ALIGNMENT - 1) & !(DMA_ALIGNMENT - 1)` in wrapping `usize`
arithmetic.  For a value `x < 2^64`, `x & !4095 = x / 4096 * 4096`. -/
def alignUp (size : Nat) : Nat :=
  (size + (DMA_ALIGNMENT - 1)) % USIZE / DMA_ALIGNMENT * DMA_ALIGNMENT

/-- Rust `DmaBuffer::new`: zero-length requests fail; otherwise the requested
length is page-rounded and the allocation succeeds (the development
backend allocates page-aligned heap memory and cannot fail in the
model; the Redox backend's scheme errors are environment failures
outside the scope of the claims). -/
def DmaBuffer.new (size : Nat) : Except DmaError DmaBuffer :=
  if size = 0 then .error .zeroSize
  else .ok { size := alignUp size }

/-- Firmware magic bytes `"VPU!"`. -/
def FW_MAGIC : List Nat := [0x56, 0x50, 0x55, 0x21]

/-- Rust `load_firmware`, with the file contents passed in as the byte list
`fw_data` (the filesystem read is the caller's environment; a read
failure would yield `FirmwareRead`, which no claim concerns).  Checks:
empty, too large, magic; then allocates a DMA buffer of the firmware's
length and copies the image in with `write_bytes(0, &fw_data)`, whose
bounds check `0 + len ≤ capacity` is modelled faithfully. -/
def load_firmware (fw_data : List Nat) : Except DmaError DmaBuffer :=
  if fw_data = [] then .error .firmwareEmpty
  else if fw_data.length > FW_MAX_SIZE then
    .error (.firmwareTooLarge fw_data.length FW_MAX_SIZE)
  else if fw_data.length < 4 ∨ fw_data.take 4 ≠ FW_MAGIC then
    .error .firmwareBadMagic
  else
    match DmaBuffer.new fw_data.length with
    | .error e => .error e
    | .ok buf =>
      if fw_data.length ≤ buf.size then .ok buf
      else .error (.outOfBounds 0 fw_data.length buf.size)

-- ============================================================
-- inference.rs — CommandQueue
-- ============================================================

/-- The `InferenceError` enum from inference.rs. -/
inductive InferenceError where
  | queueWrite (e : DmaError)
  | queueFull
  | bufferTooLarge
  | timeout (job_id : Nat)
  | npuError (job_id status : Nat)
deriving DecidableEq, Repr

/-- The `CommandQueue` struct: ring buffer, host write index, capacity, next job id.
`next_job_id` is a `u32` in the source; its post-increment wraps at
`2^32` (release semantics). -/
structure CommandQueue where
  ring : DmaBuffer
  write_idx : Nat
  capacity : Nat
  next_job_id : Nat
deriving DecidableEq, Repr

/-- Rust `CommandQueue::new`: zero capacity fails with `ZeroSize`;
`capacity.checked_mul(CMD_DESC_SIZE)` fails with the `OutOfBounds`
payload written in the source; then the ring DMA buffer is allocated. -/
def CommandQueue.new (capacity : Nat) : Except DmaError CommandQueue :=
  if capacity = 0 then .error .zeroSize
  else if capacity * CMD_DESC_SIZE ≥ USIZE then
    .error (.outOfBounds 0 capacity CMD_DESC_SIZE)
  else
    match DmaBuffer.new (capacity * CMD_DESC_SIZE) with
    | .error e => .error e
    | .ok ring =>
      .ok { ring := ring, write_idx := 0, capacity := capacity, next_job_id := 1 }

/-- Rust `CommandQueue::submit`, with the three DMA buffer byte lengths passed
as `model`, `input`, `output`.  Mirrors the source order exactly:

1. `job_id := next_job_id; next_job_id += 1` (wrapping `u32`);
2. `CommandDescriptor::new_inference` fails with `BufferTooLarge` when
   any length exceeds `u32::MAX`;
3. `write_idx.checked_mul(CMD_DESC_SIZE)` fails with `QueueFull` on
   overflow;
4. `ring.write_bytes(offset, 64 bytes)` fails with `QueueWrite` when
   `offset + 64 > ring.size`;
5. `write_idx := (write_idx + 1) % capacity`; ring the doorbell (the
   doorbell MMIO write does not change queue state); return `job_id`. -/
def CommandQueue.submit (q : CommandQueue) (model input output : Nat) :
    Except InferenceError Nat × CommandQueue :=
  let job_id := q.next_job_id
  let q1 := { q with next_job_id := (q.next_job_id + 1) % U32 }
  if model ≥ U32 ∨ input ≥ U32 ∨ output ≥ U32 then
    (.error .bufferTooLarge, q1)
  else if q1.write_idx * CMD_DESC_SIZE ≥ USIZE then
    (.error .queueFull, q1)
  else if q1.write_idx * CMD_DESC_SIZE + CMD_DESC_SIZE > q1.ring.size then
    (.error (.queueWrite (.outOfBounds (q1.write_idx * CMD_DESC_SIZE)
      CMD_DESC_SIZE q1.ring.size)), q1)
  else
    (.ok job_id, { q1 with write_idx := (q1.write_idx + 1) % q1.capacity })

/-- A submission request: the three buffer byte lengths. -/
structure SubmitReq where
  model : Nat
  input : Nat
  output : Nat
deriving DecidableEq, Repr

/-- Run a sequence of `submit` calls, collecting the job ids of the
successful ones in order. -/
def runSubmits (q : CommandQueue) : List SubmitReq → List Nat × CommandQueue
  | [] => ([], q)
  | r :: rs =>
    let (res, q1) := q.submit r.model r.input r.output
    let (ids, qf) := runSubmits q1 rs
    match res with
    | .ok id => (id :: ids, qf)
    | .error _ => (ids, qf)

-- ============================================================
-- boot.rs — trigger_and_wait (the status poll loop)
-- ============================================================

/-- The `BootError` enum's terminal boot-loop cases plus `BootResult::Ready`; the
loop returns one of these.  (`Ambiguous` is declared in the source but
never constructed, and the pre-loop errors are out of scope here.) -/
inductive TWResult where
  | ready (fw_version : Nat)
  | firmwareDead
  | firmwareBadImage
  | nudgeExhausted (attempts : Nat)
  | timeout (last_status : Nat)
deriving DecidableEq, Repr

/-- Observable state of one execution of the `trigger_and_wait` loop:
`nudge` is the `nudge_count` local, `elapsed` the milliseconds of sleep
since `boot_start`, `fwReads` how many times `HOST_SS_FW_STATUS` has
been read inside the loop, `doorbells` how many times
`IPC_DRBL_TRIGGER` has been written to the doorbell (including the
initial pre-loop ring), and `dumped` whether `dump_diagnostics` ran. -/
structure LoopSt where
  nudge : Nat
  elapsed : Nat
  fwReads : Nat
  doorbells : Nat
  dumped : Bool
deriving DecidableEq, Repr

/-- One iteration of the poll loop in `trigger_and_wait`.  `status i` is
the value returned by the i-th read of `HOST_SS_FW_STATUS`; `fwVer` the
value of `HOST_SS_FW_VERSION` when it is read on success.  Returns
`.inl` on a terminal result and `.inr` with the successor state when
the loop continues.  The boot-counter sample at the end of each
iteration only logs a warning and is not modelled; the register reads
of `dump_diagnostics` are recorded by the `dumped` flag (their offsets
are `dumpRegisters` below). -/
def twStep (status : Nat → Nat) (fwVer : Nat) (st : LoopSt) :
    (TWResult × LoopSt) ⊕ LoopSt :=
  if st.elapsed ≥ FW_BOOT_TIMEOUT_MS then
    -- timeout: fresh status read, dump, return Timeout{last_status}
    let last := status st.fwReads
    .inl (.timeout last, { st with fwReads := st.fwReads + 1, dumped := true })
  else
    let raw := status st.fwReads
    let st1 := { st with fwReads := st.fwReads + 1 }
    let code := Nat.land raw FW_STATUS_MASK
    if code = FW_STATUS_READY then
      .inl (.ready fwVer, st1)
    else if code = FW_STATUS_DEAD then
      .inl (.firmwareDead, { st1 with dumped := true })
    else if code = FW_STATUS_OBAD then
      .inl (.firmwareBadImage, st1)
    else if code = FW_STATUS_CAFE then
      let n := st1.nudge + 1
      if n > NUDGE_MAX_RETRIES then
        .inl (.nudgeExhausted n, { st1 with nudge := n, dumped := true })
      else
        .inr { st1 with
                 nudge := n
                 doorbells := st1.doorbells + 1
                 elapsed := st1.elapsed + NUDGE_DELAY_MS * (n + 1) }
    else if code = FW_STATUS_BEEF ∨ code = FW_STATUS_FACE then
      .inr { st1 with elapsed := st1.elapsed + POLL_INTERVAL_MS * 10 }
    else if raw = 0 then
      -- the 50 ms arm tests the *raw* word, not the masked code
      .inr { st1 with elapsed := st1.elapsed + POLL_INTERVAL_MS * 5 }
    else
      .inr { st1 with elapsed := st1.elapsed + POLL_INTERVAL_MS * 10 }

/-- The poll loop, fuel-indexed.  `twLoop_isSome` below shows 101 units
of fuel always suffice (every continuing iteration sleeps ≥ 50 ms and
the deadline check fires at 5000 ms). -/
def twLoop (status : Nat → Nat) (fwVer : Nat) :
    Nat → LoopSt → Option (TWResult × LoopSt)
  | 0, _ => none
  | fuel + 1, st =>
    match twStep status fwVer st with
    | .inl r => some r
    | .inr st1 => twLoop status fwVer fuel st1

/-- Loop entry state: interrupts are unmasked, the doorbell has been rung
once, and the initial 300 ms nudge delay has passed; `boot_start` is
taken *after* that sleep, so `elapsed` starts at 0. -/
def twInit : LoopSt :=
  { nudge := 0, elapsed := 0, fwReads := 0, doorbells := 1, dumped := false }

/-- The poll phase of `trigger_and_wait` as a whole. -/
def trigger_and_wait (status : Nat → Nat) (fwVer : Nat) :
    Option (TWResult × LoopSt) :=
  twLoop status fwVer 101 twInit

/-- The register offsets read by `dump_diagnostics`, in source order
(the firmware status register is read twice: once for the raw value,
once for the decoded string). -/
def dumpRegisters : List Nat :=
  [HOST_SS_FW_STATUS, HOST_SS_FW_STATUS, HOST_SS_FW_VERSION,
   HOST_SS_BOOT_COUNT, BUTTRESS_VPU_STATUS, HOST_SS_GEN_CTRL,
   BUTTRESS_GLOBAL_INT_STS]

/-- Whether the loop's return path for a given terminal result calls
`dump_diagnostics` before returning (read off the source: `Timeout`,
`FirmwareDead` and `NudgeExhausted` dump; `Ready` and — notably —
`FirmwareBadImage` do not). -/
def dumpsOnReturn : TWResult → Bool
  | .ready _ => false
  | .firmwareBadImage => false
  | _ => true

-- ============================================================
-- Concrete fixtures used by witnesses and counterexamples
-- ============================================================

/-- The queue produced by `CommandQueue::new(256)` (the default
`CMD_QUEUE_SIZE`): ring of `alignUp (256 * 64) = 16384` bytes. -/
def qDefault : CommandQueue :=
  { ring := { size := 16384 }, write_idx := 0, capacity := 256, next_job_id := 1 }

/-- The queue produced by `CommandQueue::new(4)`: ring page-rounded to
4096 bytes. -/
def qSmall : CommandQueue :=
  { ring := { size := 4096 }, write_idx := 0, capacity := 4, next_job_id := 1 }

/-- Scenario S3's silicon: `0xCAFE0000` for 3 consecutive status reads,
then `0xF00D0000`. -/
def cafe3 : Nat → Nat := fun i => if i < 3 then 0xCAFE0000 else 0xF00D0000

/-- Silicon stuck at `0xCAFE0000` on every status read. -/
def cafeForever : Nat → Nat := fun _ => 0xCAFE0000

/-- Silicon stuck at `0x0BAD0000` on every status read. -/
def obadForever : Nat → Nat := fun _ => 0x0BAD0000

-- ============================================================
-- Helper lemmas about one loop iteration
-- ============================================================

/-- A continuing loop iteration happens strictly before the deadline,
reads the status register once, sleeps between 50 and 1800 ms, leaves
the dump flag alone, and increments the nudge counter by at most one,
never past `NUDGE_MAX_RETRIES`. -/
theorem twStep_inr {status : Nat → Nat} {fwVer : Nat} {st st1 : LoopSt}
    (h : twStep status fwVer st = .inr st1) :
    st.elapsed < FW_BOOT_TIMEOUT_MS ∧ st1.fwReads = st.fwReads + 1 ∧
    st.elapsed + 50 ≤ st1.elapsed ∧ st1.elapsed ≤ st.elapsed + 1800 ∧
    st1.dumped = st.dumped ∧
    (st1.nudge = st.nudge ∨ (st1.nudge = st.nudge + 1 ∧ st1.nudge ≤ NUDGE_MAX_RETRIES)) := by
  unfold twStep at h
  dsimp only at h
  split at h
  · exact absurd h (by simp)
  · rename_i hto
    split at h
    · exact absurd h (by simp)
    · split at h
      · exact absurd h (by simp)
      · split at h
        · exact absurd h (by simp)
        · split at h
          · split at h
            · exact absurd h (by simp)
            · rename_i hcap
              cases h
              refine ⟨by omega, rfl, ?_, ?_, rfl, Or.inr ⟨rfl, ?_⟩⟩
              · show st.elapsed + 50 ≤ st.elapsed + NUDGE_DELAY_MS * (st.nudge + 1 + 1)
                simp only [NUDGE_DELAY_MS]
                omega
              · show st.elapsed + NUDGE_DELAY_MS * (st.nudge + 1 + 1) ≤ st.elapsed + 1800
                simp only [NUDGE_MAX_RETRIES] at hcap
                simp only [NUDGE_DELAY_MS]
                omega
              · show st.nudge + 1 ≤ NUDGE_MAX_RETRIES
                omega
          · split at h
            · cases h
              exact ⟨by omega, rfl, by simp [POLL_INTERVAL_MS], by simp [POLL_INTERVAL_MS],
                rfl, Or.inl rfl⟩
            · split at h
              · cases h
                exact ⟨by omega, rfl, by simp [POLL_INTERVAL_MS], by simp [POLL_INTERVAL_MS],
                  rfl, Or.inl rfl⟩
              · cases h
                exact ⟨by omega, rfl, by simp [POLL_INTERVAL_MS], by simp [POLL_INTERVAL_MS],
                  rfl, Or.inl rfl⟩

/-- A terminating loop iteration does not sleep, and sets the dump flag
exactly when the return path runs `dump_diagnostics`. -/
theorem twStep_inl {status : Nat → Nat} {fwVer : Nat} {st : LoopSt} {r : TWResult}
    {st1 : LoopSt} (h : twStep status fwVer st = .inl (r, st1)) :
    st1.elapsed = st.elapsed ∧ st1.dumped = (st.dumped || dumpsOnReturn r) := by
  unfold twStep at h
  dsimp only at h
  split at h
  · cases h; exact ⟨rfl, by simp [dumpsOnReturn]⟩
  · split at h
    · cases h; exact ⟨rfl, by simp [dumpsOnReturn]⟩
    · split at h
      · cases h; exact ⟨rfl, by simp [dumpsOnReturn]⟩
      · split at h
        · cases h; exact ⟨rfl, by simp [dumpsOnReturn]⟩
        · split at h
          · split at h
            · cases h; exact ⟨rfl, by simp [dumpsOnReturn]⟩
            · exact absurd h (by simp)
          · split at h
            · exact absurd h (by simp)
            · split at h
              · exact absurd h (by simp)
              · exact absurd h (by simp)

/-- With fuel covering the worst case (each continuing iteration sleeps
at least 50 ms and the deadline check fires at 5000 ms), the poll loop
always produces a result. -/
theorem twLoop_isSome (status : Nat → Nat) (fwVer : Nat) :
    ∀ fuel st, FW_BOOT_TIMEOUT_MS - st.elapsed + 50 ≤ 50 * fuel →
      (twLoop status fwVer fuel st).isSome = true := by
  intro fuel
  induction fuel with
  | zero => intro st h; simp [FW_BOOT_TIMEOUT_MS] at h
  | succ n ih =>
    intro st h
    rw [twLoop]
    cases htw : twStep status fwVer st with
    | inl r => simp
    | inr st1 =>
      simp only
      apply ih
      have h2 := twStep_inr htw
      simp only [FW_BOOT_TIMEOUT_MS] at *
      omega

/-- Invariant propagation through the whole loop: the final elapsed time
never reaches `FW_BOOT_TIMEOUT_MS + 1800`, and the final dump flag is the
initial one or-ed with the return path's dump behaviour. -/
theorem twLoop_inv (status : Nat → Nat) (fwVer : Nat) :
    ∀ fuel st r st1, twLoop status fwVer fuel st = some (r, st1) →
      (st.elapsed < FW_BOOT_TIMEOUT_MS + 1800 → st1.elapsed < FW_BOOT_TIMEOUT_MS + 1800) ∧
      st1.dumped = (st.dumped || dumpsOnReturn r) := by
  intro fuel
  induction fuel with
  | zero => intro st r st1 h; simp [twLoop] at h
  | succ n ih =>
    intro st r st1 h
    rw [twLoop] at h
    cases htw : twStep status fwVer st with
    | inl p =>
      rw [htw] at h
      simp only [Option.some.injEq] at h
      cases p with
      | mk r0 st0 =>
        injection h with hr hst
        subst hr
        subst hst
        have h2 := twStep_inl htw
        exact ⟨fun he => by omega, h2.2⟩
    | inr st2 =>
      rw [htw] at h
      have h2 := twStep_inr htw
      have h3 := ih st2 r st1 h
      refine ⟨fun he => h3.1 ?_, ?_⟩
      · simp only [FW_BOOT_TIMEOUT_MS] at *
        omega
      · rw [h3.2, h2.2.2.2.2.1]

-- ============================================================
-- C1 — the poll-loop action table
-- ============================================================

/-- C1 (corrected): one iteration of the boot status poll loop, taken
before the global deadline, acts on the status word as follows: masked
0xF00D reads the firmware version and returns `Ready`; masked 0xDEAD
fails `FirmwareDead`; masked 0x0BAD fails `FirmwareBadImage`; masked
0xBEEF or 0xFACE sleeps 100 ms and continues; a raw word equal to 0
sleeps 50 ms and continues; and any other status word — including words
whose masked upper half is 0x0000 but whose low half is nonzero, which
the claim asserted would sleep 50 ms — sleeps 100 ms and continues (the
nudge code 0xCAFE follows the nudge protocol instead; see the C2
theorem).  The action is therefore not determined by the masked upper
16 bits alone: the 50 ms arm requires the whole raw word to be zero. -/
theorem C1_poll_action_table (status : Nat → Nat) (fwVer : Nat) (st : LoopSt) (raw : Nat)
    (he : st.elapsed < FW_BOOT_TIMEOUT_MS) (hr : status st.fwReads = raw) :
    (Nat.land raw FW_STATUS_MASK = FW_STATUS_READY →
      twStep status fwVer st = .inl (.ready fwVer, { st with fwReads := st.fwReads + 1 })) ∧
    (Nat.land raw FW_STATUS_MASK = FW_STATUS_DEAD →
      twStep status fwVer st = .inl (.firmwareDead, { st with fwReads := st.fwReads + 1, dumped := true })) ∧
    (Nat.land raw FW_STATUS_MASK = FW_STATUS_OBAD →
      twStep status fwVer st = .inl (.firmwareBadImage, { st with fwReads := st.fwReads + 1 })) ∧
    (Nat.land raw FW_STATUS_MASK = FW_STATUS_BEEF ∨ Nat.land raw FW_STATUS_MASK = FW_STATUS_FACE →
      twStep status fwVer st = .inr { st with fwReads := st.fwReads + 1, elapsed := st.elapsed + 100 }) ∧
    (raw = 0 →
      twStep status fwVer st = .inr { st with fwReads := st.fwReads + 1, elapsed := st.elapsed + 50 }) ∧
    (Nat.land raw FW_STATUS_MASK ≠ FW_STATUS_READY →
      Nat.land raw FW_STATUS_MASK ≠ FW_STATUS_DEAD →
      Nat.land raw FW_STATUS_MASK ≠ FW_STATUS_OBAD →
      Nat.land raw FW_STATUS_MASK ≠ FW_STATUS_CAFE →
      Nat.land raw FW_STATUS_MASK ≠ FW_STATUS_BEEF →
      Nat.land raw FW_STATUS_MASK ≠ FW_STATUS_FACE →
      raw ≠ 0 →
      twStep status fwVer st = .inr { st with fwReads := st.fwReads + 1, elapsed := st.elapsed + 100 }) := by
  have hd : ¬ st.elapsed ≥ FW_BOOT_TIMEOUT_MS := by omega
  refine ⟨?_, ?_, ?_, ?_, ?_, ?_⟩
  · intro h
    simp [twStep, hd, hr, h, FW_STATUS_READY, FW_STATUS_DEAD, FW_STATUS_OBAD,
      FW_STATUS_CAFE, FW_STATUS_BEEF, FW_STATUS_FACE]
  · intro h
    simp [twStep, hd, hr, h, FW_STATUS_READY, FW_STATUS_DEAD, FW_STATUS_OBAD,
      FW_STATUS_CAFE, FW_STATUS_BEEF, FW_STATUS_FACE]
  · intro h
    simp [twStep, hd, hr, h, FW_STATUS_READY, FW_STATUS_DEAD, FW_STATUS_OBAD,
      FW_STATUS_CAFE, FW_STATUS_BEEF, FW_STATUS_FACE]
  · intro h
    rcases h with h | h <;>
      simp [twStep, hd, hr, h, FW_STATUS_READY, FW_STATUS_DEAD, FW_STATUS_OBAD,
        FW_STATUS_CAFE, FW_STATUS_BEEF, FW_STATUS_FACE, POLL_INTERVAL_MS]
  · intro h
    simp [twStep, hd, hr, h, FW_STATUS_MASK, FW_STATUS_READY, FW_STATUS_DEAD, FW_STATUS_OBAD,
      FW_STATUS_CAFE, FW_STATUS_BEEF, FW_STATUS_FACE, POLL_INTERVAL_MS, Nat.zero_and]
  · intro h1 h2 h3 h4 h5 h6 h7
    simp [twStep, hd, hr, h1, h2, h3, h4, h5, h6, h7, POLL_INTERVAL_MS]

/-- Witness for C1 at a ready device: the masked code 0xF00D makes the
first iteration return `Ready` with the firmware version. -/
theorem C1_witness :
    twInit.elapsed < FW_BOOT_TIMEOUT_MS ∧
    (fun _ : Nat => 0xF00D0000) twInit.fwReads = 0xF00D0000 ∧
    Nat.land 0xF00D0000 FW_STATUS_MASK = FW_STATUS_READY ∧
    twStep (fun _ => 0xF00D0000) 7 twInit = .inl (.ready 7, { twInit with fwReads := twInit.fwReads + 1 }) :=
  ⟨by decide, rfl, by decide,
    (C1_poll_action_table (fun _ => 0xF00D0000) 7 twInit 0xF00D0000 (by decide) rfl).1 (by decide)⟩

/-- Counterexample to C1 as stated: the raw words 0x00000000 and
0x00000001 have the same masked upper 16 bits (0x0000), yet the first
sleeps 50 ms and the second 100 ms — the action is not determined by the
masked value alone, and masked 0x0000 does not always sleep 50 ms. -/
theorem C1_counterexample :
    Nat.land 0 FW_STATUS_MASK = Nat.land 1 FW_STATUS_MASK ∧
    twStep (fun _ => 0) 0 twInit =
      .inr { nudge := 0, elapsed := 50, fwReads := 1, doorbells := 1, dumped := false } ∧
    twStep (fun _ => 1) 0 twInit =
      .inr { nudge := 0, elapsed := 100, fwReads := 1, doorbells := 1, dumped := false } := by
  decide

-- ============================================================
-- C2 — the nudge protocol
-- ============================================================

/-- C2 (confirmed): the nudge counter starts at 0; a continuing loop
iteration changes it by 0 or 1 and never takes it past
`NUDGE_MAX_RETRIES` (5); every observation of masked status 0xCAFE
increments it, and then: if the new count exceeds 5 the loop fails with
`NudgeExhausted`, otherwise the doorbell is re-rung (bit 31,
`IPC_DRBL_TRIGGER`) and the loop sleeps `300 × (new_count + 1)` ms —
linear back-off.  Scenario S3: a device answering 0xCAFE0000 on 3
consecutive status reads and then 0xF00D0000 yields `Ready` with the
nudge counter at 3 and exactly 4 doorbell writes in total (the initial
ring plus 3 nudges). -/
theorem C2_nudge_protocol (status : Nat → Nat) (fwVer : Nat) :
    twInit.nudge = 0 ∧
    (∀ st st1 : LoopSt, twStep status fwVer st = .inr st1 →
      (st1.nudge = st.nudge ∨ st1.nudge = st.nudge + 1) ∧
      (st.nudge ≤ NUDGE_MAX_RETRIES → st1.nudge ≤ NUDGE_MAX_RETRIES)) ∧
    (∀ st : LoopSt, st.elapsed < FW_BOOT_TIMEOUT_MS →
      Nat.land (status st.fwReads) FW_STATUS_MASK = FW_STATUS_CAFE →
      (st.nudge + 1 > NUDGE_MAX_RETRIES →
        twStep status fwVer st = .inl (.nudgeExhausted (st.nudge + 1),
          { st with fwReads := st.fwReads + 1, nudge := st.nudge + 1, dumped := true })) ∧
      (st.nudge + 1 ≤ NUDGE_MAX_RETRIES →
        twStep status fwVer st = .inr
          { st with
              fwReads := st.fwReads + 1
              nudge := st.nudge + 1
              doorbells := st.doorbells + 1
              elapsed := st.elapsed + NUDGE_DELAY_MS * (st.nudge + 2) })) ∧
    trigger_and_wait cafe3 0x01020304 =
      some (.ready 0x01020304,
        { nudge := 3, elapsed := 2700, fwReads := 4, doorbells := 4, dumped := false }) := by
  refine ⟨rfl, ?_, ?_, by decide⟩
  · intro st st1 h
    have h2 := (twStep_inr h).2.2.2.2.2
    constructor
    · rcases h2 with h2 | h2
      · exact Or.inl h2
      · exact Or.inr h2.1
    · intro hb
      rcases h2 with h2 | h2
      · omega
      · exact h2.2
  · intro st he hc
    have hd : ¬ st.elapsed ≥ FW_BOOT_TIMEOUT_MS := by omega
    unfold twStep
    rw [if_neg hd]
    dsimp only
    rw [hc]
    rw [if_neg (by decide), if_neg (by decide), if_neg (by decide), if_pos rfl]
    constructor
    · intro hn
      rw [if_pos hn]
    · intro hn
      rw [if_neg (by omega)]

/-- Witness for C2: the nudge branch at the concrete loop entry state and
a device answering 0xCAFE0000, plus the concrete S3 run. -/
theorem C2_witness :
    twInit.elapsed < FW_BOOT_TIMEOUT_MS ∧
    Nat.land (cafeForever twInit.fwReads) FW_STATUS_MASK = FW_STATUS_CAFE ∧
    twInit.nudge + 1 ≤ NUDGE_MAX_RETRIES ∧
    twStep cafeForever 0 twInit = .inr
      { twInit with
          fwReads := twInit.fwReads + 1
          nudge := twInit.nudge + 1
          doorbells := twInit.doorbells + 1
          elapsed := twInit.elapsed + NUDGE_DELAY_MS * (twInit.nudge + 2) } :=
  ⟨by decide, by decide, by decide,
    ((C2_nudge_protocol cafeForever 0).2.2.1 twInit (by decide) (by decide)).2 (by decide)⟩

-- ============================================================
-- C7 — global deadline bound
-- ============================================================

/-- C7 (corrected): the poll loop always terminates, and its total wall
time (sum of the sleeps since `boot_start`) is strictly below
`FW_BOOT_TIMEOUT_MS + 6 × NUDGE_DELAY_MS` = 5000 + 1800 ms, the 1800 ms
being the longest single back-off sleep (`300 × 6`, the fifth nudge) —
not `FW_BOOT_TIMEOUT_MS` plus one poll interval as the claim stated.
When an iteration starts at or past the deadline it returns
`Timeout{last_status}` carrying a freshly read status word, after the
diagnostic dump. -/
theorem C7_boot_loop_time_bound (status : Nat → Nat) (fwVer : Nat) :
    (trigger_and_wait status fwVer).isSome = true ∧
    (∀ r st1, trigger_and_wait status fwVer = some (r, st1) →
      st1.elapsed < FW_BOOT_TIMEOUT_MS + 6 * NUDGE_DELAY_MS) ∧
    (∀ st : LoopSt, st.elapsed ≥ FW_BOOT_TIMEOUT_MS →
      twStep status fwVer st =
        .inl (.timeout (status st.fwReads), { st with fwReads := st.fwReads + 1, dumped := true })) := by
  refine ⟨?_, ?_, ?_⟩
  · exact twLoop_isSome status fwVer 101 twInit (by decide)
  · intro r st1 h
    have h2 := (twLoop_inv status fwVer 101 twInit r st1 h).1
    simp only [NUDGE_DELAY_MS]
    have : twInit.elapsed < FW_BOOT_TIMEOUT_MS + 1800 := by decide
    have h3 := h2 this
    omega
  · intro st hge
    unfold twStep
    rw [if_pos hge]

/-- Witness for C7 at the concrete all-zero device: the loop terminates,
the final elapsed time is below the corrected bound, and the timeout
step at a concrete expired state returns a fresh status read. -/
theorem C7_witness :
    (trigger_and_wait (fun _ => 0) 0).isSome = true ∧
    ({ nudge := 0, elapsed := 5000, fwReads := 100, doorbells := 1, dumped := false } : LoopSt).elapsed
      ≥ FW_BOOT_TIMEOUT_MS ∧
    twStep (fun _ => 0) 0 { nudge := 0, elapsed := 5000, fwReads := 100, doorbells := 1, dumped := false } =
      .inl (.timeout 0, { nudge := 0, elapsed := 5000, fwReads := 101, doorbells := 1, dumped := true }) :=
  ⟨(C7_boot_loop_time_bound (fun _ => 0) 0).1, by decide,
    (C7_boot_loop_time_bound (fun _ => 0) 0).2.2
      { nudge := 0, elapsed := 5000, fwReads := 100, doorbells := 1, dumped := false } (by decide)⟩

/-- Counterexample to C7 as stated: a device stuck at 0xCAFE0000 keeps
the loop busy for 6000 ms of wall time — more than `FW_BOOT_TIMEOUT_MS`
(5000 ms) plus one poll interval (at most `POLL_INTERVAL_MS × 10` =
100 ms, the longest regular poll sleep). -/
theorem C7_counterexample :
    trigger_and_wait cafeForever 0 =
      some (.timeout 0xCAFE0000,
        { nudge := 5, elapsed := 6000, fwReads := 6, doorbells := 6, dumped := true }) ∧
    FW_BOOT_TIMEOUT_MS + POLL_INTERVAL_MS * 10 < 6000 := by
  decide

-- ============================================================
-- C9 — diagnostic dump on terminal errors
-- ============================================================

/-- C9 (corrected): the loop's dump flag at return equals
`dumpsOnReturn` of the result — `dump_diagnostics` runs before returning
`FirmwareDead`, `NudgeExhausted` and `Timeout`, but not before
`FirmwareBadImage`, contrary to the claim.  The dump itself reads the
firmware status (twice), firmware version, boot count, buttress status,
general control and global interrupt status registers, in that order. -/
theorem C9_diagnostic_dump (status : Nat → Nat) (fwVer : Nat) :
    (∀ r st1, trigger_and_wait status fwVer = some (r, st1) →
      st1.dumped = dumpsOnReturn r ∧
      (r = .firmwareDead ∨ (∃ a, r = .nudgeExhausted a) ∨ (∃ l, r = .timeout l) →
        st1.dumped = true)) ∧
    dumpRegisters = [HOST_SS_FW_STATUS, HOST_SS_FW_STATUS, HOST_SS_FW_VERSION,
      HOST_SS_BOOT_COUNT, BUTTRESS_VPU_STATUS, HOST_SS_GEN_CTRL, BUTTRESS_GLOBAL_INT_STS] := by
  refine ⟨?_, rfl⟩
  intro r st1 h
  have h2 := (twLoop_inv status fwVer 101 twInit r st1 h).2
  have hflag : st1.dumped = dumpsOnReturn r := by
    rw [h2]
    rfl
  refine ⟨hflag, ?_⟩
  intro hcase
  rw [hflag]
  rcases hcase with rfl | ⟨a, rfl⟩ | ⟨l, rfl⟩ <;> rfl

/-- Witness for C9 at a dead device: the run terminates with
`FirmwareDead` and the dump flag set. -/
theorem C9_witness :
    (({ nudge := 0, elapsed := 0, fwReads := 1, doorbells := 1, dumped := true } : LoopSt).dumped
        = dumpsOnReturn .firmwareDead) ∧
    (({ nudge := 0, elapsed := 0, fwReads := 1, doorbells := 1, dumped := true } : LoopSt).dumped = true) :=
  ((C9_diagnostic_dump (fun _ => 0xDEAD0000) 7).1 .firmwareDead
    { nudge := 0, elapsed := 0, fwReads := 1, doorbells := 1, dumped := true } (by decide)).imp
    id (fun f => f (Or.inl rfl))

/-- Counterexample to C9 as stated: a device answering 0x0BAD0000 makes
the loop return the terminal error `FirmwareBadImage` with the dump flag
still clear — no diagnostic dump happens on that path. -/
theorem C9_counterexample :
    trigger_and_wait obadForever 7 =
      some (.firmwareBadImage,
        { nudge := 0, elapsed := 0, fwReads := 1, doorbells := 1, dumped := false }) := by
  decide

-- ============================================================
-- C10 — the status monitor's decoder
-- ============================================================

/-- C10 (confirmed): `poll` returns exactly `decode_state` of the word it
reads, and the decoder maps masked 0x0000 to `PoweredOff`, 0xF00D to
`Ready`, 0xDEAD to `Dead`, 0xCAFE/0xBEEF/0xFACE to `Booting`, and every
other code — including the rejected-firmware code 0x0BAD — to `Unknown`
carrying the unmasked raw word.  No input decodes to `Busy`, so `poll`
can never return it. -/
theorem C10_decode_state_table (raw : Nat) (mon : StatusMonitor) :
    (mon.poll raw).1 = decode_state raw ∧
    decode_state raw ≠ .busy ∧
    (Nat.land raw FW_STATUS_MASK = 0 → decode_state raw = .poweredOff) ∧
    (Nat.land raw FW_STATUS_MASK = FW_STATUS_READY → decode_state raw = .ready) ∧
    (Nat.land raw FW_STATUS_MASK = FW_STATUS_DEAD → decode_state raw = .dead) ∧
    (Nat.land raw FW_STATUS_MASK = FW_STATUS_CAFE ∨ Nat.land raw FW_STATUS_MASK = FW_STATUS_BEEF ∨
      Nat.land raw FW_STATUS_MASK = FW_STATUS_FACE → decode_state raw = .booting) ∧
    (Nat.land raw FW_STATUS_MASK = FW_STATUS_OBAD → decode_state raw = .unknown raw) ∧
    (Nat.land raw FW_STATUS_MASK ≠ 0 →
      Nat.land raw FW_STATUS_MASK ≠ FW_STATUS_READY →
      Nat.land raw FW_STATUS_MASK ≠ FW_STATUS_DEAD →
      Nat.land raw FW_STATUS_MASK ≠ FW_STATUS_CAFE →
      Nat.land raw FW_STATUS_MASK ≠ FW_STATUS_BEEF →
      Nat.land raw FW_STATUS_MASK ≠ FW_STATUS_FACE →
      decode_state raw = .unknown raw) := by
  refine ⟨?_, ?_, ?_, ?_, ?_, ?_, ?_, ?_⟩
  · unfold StatusMonitor.poll
    dsimp only
    split <;> rfl
  · unfold decode_state
    dsimp only
    split
    · simp
    · split
      · simp
      · split
        · simp
        · split <;> simp
  · intro h
    simp [decode_state, h]
  · intro h
    simp [decode_state, h, FW_STATUS_READY, FW_STATUS_DEAD, FW_STATUS_CAFE,
      FW_STATUS_BEEF, FW_STATUS_FACE]
  · intro h
    simp [decode_state, h, FW_STATUS_READY, FW_STATUS_DEAD, FW_STATUS_CAFE,
      FW_STATUS_BEEF, FW_STATUS_FACE]
  · intro h
    rcases h with h | h | h <;>
      simp [decode_state, h, FW_STATUS_READY, FW_STATUS_DEAD, FW_STATUS_CAFE,
        FW_STATUS_BEEF, FW_STATUS_FACE]
  · intro h
    simp [decode_state, h, FW_STATUS_READY, FW_STATUS_DEAD, FW_STATUS_CAFE,
      FW_STATUS_BEEF, FW_STATUS_FACE, FW_STATUS_OBAD]
  · intro h0 h1 h2 h3 h4 h5
    simp [decode_state, h0, h1, h2, h3, h4, h5]

/-- Witness for C10 at the rejected-firmware code: raw 0x0BAD0042 masks
to 0x0BAD0000 and decodes to `Unknown` with the unmasked word. -/
theorem C10_witness :
    Nat.land 0x0BAD0042 FW_STATUS_MASK = FW_STATUS_OBAD ∧
    decode_state 0x0BAD0042 = .unknown 0x0BAD0042 ∧
    decode_state 0x0BAD0042 ≠ .busy :=
  have h := C10_decode_state_table 0x0BAD0042 { last_state := .poweredOff, state_changes := 1 }
  ⟨by decide, h.2.2.2.2.2.2.1 (by decide), h.2.1⟩

-- ============================================================
-- C3 — firmware file validation
-- ============================================================

/-- Rounding up to the DMA page size can only grow a length (as long as
the wrapping add does not overflow, which holds for every length within
the firmware ceiling). -/
theorem le_alignUp (n : Nat) (h : n + (DMA_ALIGNMENT - 1) < USIZE) : n ≤ alignUp n := by
  unfold alignUp
  rw [Nat.mod_eq_of_lt h]
  simp only [DMA_ALIGNMENT]
  omega

/-- Branch-by-branch characterisation of `load_firmware`: the source's
guard order is empty, then too-large, then magic, then allocation (which
cannot fail for a non-empty in-ceiling image). -/
theorem load_firmware_eq (f : List Nat) :
    load_firmware f =
      if f = [] then .error .firmwareEmpty
      else if f.length > FW_MAX_SIZE then .error (.firmwareTooLarge f.length FW_MAX_SIZE)
      else if f.length < 4 ∨ f.take 4 ≠ FW_MAGIC then .error .firmwareBadMagic
      else .ok { size := alignUp f.length } := by
  unfold load_firmware
  split
  · rfl
  · split
    · rfl
    · split
      · rfl
      · rename_i h1 h2 h3
        push_neg at h3
        have hnz : f.length ≠ 0 := by omega
        have hle : f.length ≤ alignUp f.length := by
          apply le_alignUp
          simp only [FW_MAX_SIZE] at h2
          simp only [DMA_ALIGNMENT, USIZE]
          omega
        simp [DmaBuffer.new, hnz, hle]

/-- C3 (confirmed): `load_firmware(f)` succeeds iff
`4 ≤ len(f) ≤ 16 MiB` and the first four bytes are the ASCII magic
`VPU!`; an empty file is rejected `FirmwareEmpty`, a file over 16 MiB is
rejected `FirmwareTooLarge{actual, max}`, and a non-empty file within
the ceiling whose first four bytes are absent or differ from the magic —
in particular any 3-byte file — is rejected `FirmwareBadMagic`. -/
theorem C3_load_firmware_validation (f : List Nat) :
    ((load_firmware f).isOk = true ↔
      4 ≤ f.length ∧ f.length ≤ FW_MAX_SIZE ∧ f.take 4 = FW_MAGIC) ∧
    (f = [] → load_firmware f = .error .firmwareEmpty) ∧
    (f.length > FW_MAX_SIZE → load_firmware f = .error (.firmwareTooLarge f.length FW_MAX_SIZE)) ∧
    (f ≠ [] → f.length ≤ FW_MAX_SIZE → f.length < 4 ∨ f.take 4 ≠ FW_MAGIC →
      load_firmware f = .error .firmwareBadMagic) ∧
    (f.length = 3 → load_firmware f = .error .firmwareBadMagic) := by
  have key := load_firmware_eq f
  refine ⟨?_, ?_, ?_, ?_, ?_⟩
  · rw [key]
    split
    · rename_i h1
      subst h1
      simp [Except.isOk, Except.toBool]
    · split
      · rename_i h1 h2
        simp only [Except.isOk]
        constructor
        · intro h; simp [Except.toBool] at h
        · intro h; omega
      · split
        · rename_i h1 h2 h3
          simp only [Except.isOk]
          constructor
          · intro h; simp [Except.toBool] at h
          · rintro ⟨ha, hb, hc⟩
            rcases h3 with h3 | h3
            · omega
            · exact absurd hc h3
        · rename_i h1 h2 h3
          push_neg at h3
          simp only [Except.isOk]
          constructor
          · intro _
            exact ⟨h3.1, by omega, h3.2⟩
          · intro _
            rfl
  · intro h
    rw [key, if_pos h]
  · intro h
    have hne : f ≠ [] := by
      intro he
      rw [he] at h
      simp [FW_MAX_SIZE] at h
    rw [key, if_neg hne, if_pos h]
  · intro h1 h2 h3
    rw [key, if_neg h1, if_neg (by omega), if_pos h3]
  · intro h
    have hne : f ≠ [] := by
      intro he
      rw [he] at h
      simp at h
    rw [key, if_neg hne, if_neg (by simp [FW_MAX_SIZE]; omega), if_pos (by omega)]

/-- Witness for C3 at the 4-byte file that is exactly the magic: it is
accepted, and at the concrete 3-byte file, which is rejected
`FirmwareBadMagic`. -/
theorem C3_witness :
    (load_firmware [0x56, 0x50, 0x55, 0x21]).isOk = true ∧
    load_firmware [0x56, 0x50, 0x55] = .error .firmwareBadMagic :=
  ⟨(C3_load_firmware_validation [0x56, 0x50, 0x55, 0x21]).1.mpr (by decide),
    (C3_load_firmware_validation [0x56, 0x50, 0x55]).2.2.2.2 (by decide)⟩

-- ============================================================
-- C6 — MMIO bounds behaviour
-- ============================================================

/-- C6 (confirmed): for every offset (including those where `offset + 4`
overflows the 64-bit platform word), an out-of-bounds `read32` returns
0xFFFF_FFFF and an out-of-bounds `write32` is silently dropped; in-bounds
accesses read and update the underlying register state; and
`read64`/`write64` are exactly two `read32`/`write32` halves (low then
high, the high offset computed with wrapping addition), so each half
inherits this containment.  All four operations are total — no access
faults or propagates an error. -/
theorem C6_mmio_bounds (m : MmioRegion) (offset value : Nat) :
    (offset + 4 > m.size ∨ offset + 4 ≥ USIZE →
      m.read32 offset = 0xFFFFFFFF ∧ m.write32 offset value = m) ∧
    (offset + 4 ≤ m.size ∧ offset + 4 < USIZE →
      m.read32 offset = m.mem offset ∧
      (m.write32 offset value).size = m.size ∧
      (m.write32 offset value).mem offset = value % U32 ∧
      (∀ o, o ≠ offset → (m.write32 offset value).mem o = m.mem o)) ∧
    m.read64 offset = m.read32 ((offset + 4) % USIZE) * 2 ^ 32 + m.read32 offset ∧
    m.write64 offset value =
      (m.write32 offset (value % U32)).write32 ((offset + 4) % USIZE) (value / 2 ^ 32 % U32) := by
  refine ⟨?_, ?_, rfl, rfl⟩
  · intro h
    unfold MmioRegion.read32 MmioRegion.write32
    rcases Nat.lt_or_ge (offset + 4) USIZE with hlt | hge
    · have hsz : offset + 4 > m.size := by omega
      rw [if_neg (by omega), if_pos hsz, if_neg (by omega), if_pos hsz]
      exact ⟨rfl, rfl⟩
    · rw [if_pos hge, if_pos hge]
      exact ⟨rfl, rfl⟩
  · rintro ⟨h1, h2⟩
    unfold MmioRegion.read32 MmioRegion.write32
    rw [if_neg (by omega), if_neg (by omega), if_neg (by omega), if_neg (by omega)]
    refine ⟨rfl, rfl, by simp, ?_⟩
    intro o ho
    simp [ho]

/-- The fixture BAR region for the C6 witness: 8 mapped bytes, every
register reading 3. -/
def mFix : MmioRegion := { size := 8, mem := fun _ => 3 }

/-- Witness for C6: offset 100 is out of bounds in the 8-byte fixture
region (reads give all-ones, writes are dropped), and offset 0 is in
bounds (the read returns the register value). -/
theorem C6_witness :
    mFix.read32 100 = 0xFFFFFFFF ∧ mFix.write32 100 7 = mFix ∧
    mFix.read32 0 = mFix.mem 0 :=
  have h1 := (C6_mmio_bounds mFix 100 7).1 (Or.inl (by decide))
  have h2 := (C6_mmio_bounds mFix 0 7).2.1 ⟨by decide, by decide⟩
  ⟨h1.1, h1.2, h2.1⟩

-- ============================================================
-- C4 — submit consumes a job id even on BufferTooLarge
-- ============================================================

/-- C4 (corrected): `submit` assigns the current next-job-id and
post-increments it *before* the descriptor-size validation, so a call
failing `BufferTooLarge` leaves `write_idx` (and the ring and capacity)
unchanged but still consumes a job id — later successful submissions do
not receive ids consecutive with the previous successful one. -/
theorem C4_submit_burns_job_id (q : CommandQueue) (model input output : Nat)
    (h : model ≥ U32 ∨ input ≥ U32 ∨ output ≥ U32) :
    q.submit model input output =
      (.error .bufferTooLarge, { q with next_job_id := (q.next_job_id + 1) % U32 }) := by
  unfold CommandQueue.submit
  dsimp only
  rw [if_pos h]

/-- Witness for C4: an oversized model buffer on the default queue fails
`BufferTooLarge` while bumping the job counter from 1 to 2. -/
theorem C4_witness :
    qDefault.submit U32 0 0 =
      (.error .bufferTooLarge, { qDefault with next_job_id := (qDefault.next_job_id + 1) % U32 }) :=
  C4_submit_burns_job_id qDefault U32 0 0 (Or.inl (by decide))

/-- Counterexample to C4 as stated: on the queue built by
`CommandQueue::new(256)`, a submit with a `2^32`-byte model buffer fails
`BufferTooLarge`, yet `next_job_id` moves from 1 to 2 — the failed call
does not leave the queue state unchanged, so the claimed
validate-before-assign order does not hold. -/
theorem C4_counterexample :
    CommandQueue.new 256 = .ok qDefault ∧
    (qDefault.submit U32 0 0).1 = .error .bufferTooLarge ∧
    qDefault.next_job_id = 1 ∧
    (qDefault.submit U32 0 0).2.next_job_id = 2 ∧
    (qDefault.submit U32 0 0).2.next_job_id ≠ qDefault.next_job_id ∧
    (qDefault.submit U32 0 0).2.write_idx = qDefault.write_idx :=
  ⟨rfl, rfl, rfl, rfl, by decide, rfl⟩

-- ============================================================
-- C8 — command queue construction
-- ============================================================

/-- Successful-construction characterisation of `CommandQueue::new`. -/
theorem CommandQueue_new_eq (n : Nat) (h0 : 0 < n) (hsz : n * CMD_DESC_SIZE < USIZE) :
    CommandQueue.new n =
      .ok { ring := { size := alignUp (n * CMD_DESC_SIZE) }, write_idx := 0,
            capacity := n, next_job_id := 1 } := by
  unfold CommandQueue.new
  rw [if_neg (by omega), if_neg (by omega)]
  have hnz : n * CMD_DESC_SIZE ≠ 0 := by
    simp only [CMD_DESC_SIZE]
    omega
  simp [DmaBuffer.new, hnz]

/-- C8 (corrected): `CommandQueue::new(0)` fails deterministically with
`ZeroSize`; for `n > 0` construction succeeds iff `n × 64` does not
overflow the platform word; on success the write index is 0 and the
next job id is 1 — but the ring's byte length is `n × 64` rounded up to
the next 4096-byte boundary (`alignUp`), not exactly `n × 64` (they
agree only when `n × 64` is already a page multiple). -/
theorem C8_queue_new (n : Nat) :
    CommandQueue.new 0 = .error .zeroSize ∧
    (0 < n → ((CommandQueue.new n).isOk = true ↔ n * CMD_DESC_SIZE < USIZE)) ∧
    (0 < n → n * CMD_DESC_SIZE < USIZE →
      CommandQueue.new n =
        .ok { ring := { size := alignUp (n * CMD_DESC_SIZE) }, write_idx := 0,
              capacity := n, next_job_id := 1 }) := by
  refine ⟨rfl, ?_, fun h0 hsz => CommandQueue_new_eq n h0 hsz⟩
  intro h0
  constructor
  · intro hok
    by_contra hbig
    unfold CommandQueue.new at hok
    rw [if_neg (by omega), if_pos (by omega)] at hok
    simp [Except.isOk, Except.toBool] at hok
  · intro hsz
    rw [CommandQueue_new_eq n h0 hsz]
    rfl

/-- Witness for C8 at the default capacity 256: construction succeeds
with a 16384-byte ring (here `256 × 64 = 16384` is already a page
multiple). -/
theorem C8_witness :
    (CommandQueue.new 256).isOk = true ∧
    CommandQueue.new 256 =
      .ok { ring := { size := alignUp (256 * CMD_DESC_SIZE) }, write_idx := 0,
            capacity := 256, next_job_id := 1 } :=
  ⟨((C8_queue_new 256).2.1 (by decide)).mpr (by decide),
    (C8_queue_new 256).2.2 (by decide) (by decide)⟩

/-- Counterexample to C8 as stated: `CommandQueue::new(1)` allocates a
4096-byte ring (page-rounded), not exactly `1 × 64 = 64` bytes. -/
theorem C8_counterexample :
    CommandQueue.new 1 =
      .ok { ring := { size := 4096 }, write_idx := 0, capacity := 1, next_job_id := 1 } ∧
    (4096 : Nat) ≠ 1 * CMD_DESC_SIZE := by
  exact ⟨rfl, by decide⟩

-- ============================================================
-- C5 — write index and job ids over a run of submissions
-- ============================================================

/-- Every `submit` call either fails, changing nothing but the (burned)
job counter, or succeeds, returning the current next-job-id, bumping it
(wrapping `u32`), and advancing the write index modulo the capacity. -/
theorem submit_cases (q : CommandQueue) (model input output : Nat) :
    (∃ e, q.submit model input output =
      (.error e, { q with next_job_id := (q.next_job_id + 1) % U32 })) ∨
    q.submit model input output =
      (.ok q.next_job_id,
        { q with
            next_job_id := (q.next_job_id + 1) % U32
            write_idx := (q.write_idx + 1) % q.capacity }) := by
  unfold CommandQueue.submit
  dsimp only
  split
  · exact Or.inl ⟨_, rfl⟩
  · split
    · exact Or.inl ⟨_, rfl⟩
    · split
      · exact Or.inl ⟨_, rfl⟩
      · exact Or.inr rfl

/-- A run of submissions returns at most one job id per request. -/
theorem runSubmits_length_le :
    ∀ (reqs : List SubmitReq) (q : CommandQueue) (ids : List Nat) (qf : CommandQueue),
      runSubmits q reqs = (ids, qf) → ids.length ≤ reqs.length := by
  intro reqs
  induction reqs with
  | nil =>
    intro q ids qf h
    rw [runSubmits] at h
    cases h
    simp
  | cons r rs ih =>
    intro q ids qf h
    rw [runSubmits] at h
    rcases submit_cases q r.model r.input r.output with ⟨e, hs⟩ | hs <;>
      rw [hs] at h <;> dsimp only at h
    · rcases hrun : runSubmits { q with next_job_id := (q.next_job_id + 1) % U32 } rs
        with ⟨ids2, qf2⟩
      rw [hrun] at h
      dsimp only at h
      injection h with hi hq
      subst hi
      subst hq
      have hle := ih _ _ _ hrun
      simp only [List.length_cons]
      omega
    · rcases hrun : runSubmits (q.submit r.model r.input r.output).2 rs with ⟨ids2, qf2⟩
      rw [hs] at hrun
      rw [hrun] at h
      dsimp only at h
      injection h with hi hq
      subst hi
      subst hq
      have hle := ih _ _ _ hrun
      simp only [List.length_cons]
      omega

/-- Across any run of submissions — failed calls included — the write
index advances exactly once per successful call, modulo the capacity,
and the capacity is unchanged. -/
theorem runSubmits_widx :
    ∀ (reqs : List SubmitReq) (q : CommandQueue) (ids : List Nat) (qf : CommandQueue),
      0 < q.capacity → q.write_idx < q.capacity →
      runSubmits q reqs = (ids, qf) →
      qf.write_idx = (q.write_idx + ids.length) % q.capacity ∧ qf.capacity = q.capacity := by
  intro reqs
  induction reqs with
  | nil =>
    intro q ids qf hc hw h
    rw [runSubmits] at h
    cases h
    rw [List.length_nil, Nat.add_zero, Nat.mod_eq_of_lt hw]
    exact ⟨rfl, rfl⟩
  | cons r rs ih =>
    intro q ids qf hc hw h
    rw [runSubmits] at h
    rcases submit_cases q r.model r.input r.output with ⟨e, hs⟩ | hs <;>
      rw [hs] at h <;> dsimp only at h
    · rcases hrun : runSubmits { q with next_job_id := (q.next_job_id + 1) % U32 } rs
        with ⟨ids2, qf2⟩
      rw [hrun] at h
      dsimp only at h
      injection h with hi hq
      subst hi
      subst hq
      exact ih { q with next_job_id := (q.next_job_id + 1) % U32 } _ _ hc hw hrun
    · rcases hrun : runSubmits (q.submit r.model r.input r.output).2 rs with ⟨ids2, qf2⟩
      rw [hs] at hrun
      rw [hrun] at h
      dsimp only at h
      injection h with hi hq
      subst hi
      subst hq
      have hw1 : (q.write_idx + 1) % q.capacity < q.capacity := Nat.mod_lt _ hc
      have hih := ih { q with next_job_id := (q.next_job_id + 1) % U32, write_idx := (q.write_idx + 1) % q.capacity } _ _ hc hw1 hrun
      refine ⟨?_, hih.2⟩
      rw [hih.1]
      show ((q.write_idx + 1) % q.capacity + ids2.length) % q.capacity
        = (q.write_idx + (ids2.length + 1)) % q.capacity
      rw [Nat.mod_add_mod]
      have harith : q.write_idx + 1 + ids2.length = q.write_idx + (ids2.length + 1) := by omega
      rw [harith]

/-- When every call of a run succeeds, the returned job ids are the
consecutive wrapped counter values starting at the queue's current
next-job-id. -/
theorem runSubmits_ids :
    ∀ (reqs : List SubmitReq) (q : CommandQueue) (ids : List Nat) (qf : CommandQueue),
      q.next_job_id < U32 →
      runSubmits q reqs = (ids, qf) → ids.length = reqs.length →
      ids = (List.range reqs.length).map (fun i => (q.next_job_id + i) % U32) := by
  intro reqs
  induction reqs with
  | nil =>
    intro q ids qf hj h hlen
    rw [runSubmits] at h
    cases h
    simp
  | cons r rs ih =>
    intro q ids qf hj h hlen
    rw [runSubmits] at h
    rcases submit_cases q r.model r.input r.output with ⟨e, hs⟩ | hs <;>
      rw [hs] at h <;> dsimp only at h
    · rcases hrun : runSubmits { q with next_job_id := (q.next_job_id + 1) % U32 } rs
        with ⟨ids2, qf2⟩
      rw [hrun] at h
      dsimp only at h
      injection h with hi hq
      subst hi
      subst hq
      have hle := runSubmits_length_le rs { q with next_job_id := (q.next_job_id + 1) % U32 } _ _ hrun
      rw [List.length_cons] at hlen
      omega
    · rcases hrun : runSubmits (q.submit r.model r.input r.output).2 rs with ⟨ids2, qf2⟩
      rw [hs] at hrun
      rw [hrun] at h
      dsimp only at h
      injection h with hi hq
      subst hi
      subst hq
      rw [List.length_cons] at hlen
      have hj1 : (q.next_job_id + 1) % U32 < U32 := Nat.mod_lt _ (by decide)
      have hih := ih { q with next_job_id := (q.next_job_id + 1) % U32, write_idx := (q.write_idx + 1) % q.capacity } _ _ hj1 hrun (by simpa using hlen)
      simp only [List.length_cons, List.range_succ_eq_map, List.map_cons, List.map_map]
      refine List.cons_eq_cons.mpr ⟨(Nat.mod_eq_of_lt hj).symm, ?_⟩
      rw [hih]
      apply List.map_congr_left
      intro i hi
      show ((q.next_job_id + 1) % U32 + i) % U32 = (q.next_job_id + (i + 1)) % U32
      rw [Nat.mod_add_mod]
      have harith : q.next_job_id + 1 + i = q.next_job_id + (i + 1) := by omega
      rw [harith]

/-- C5 (corrected): after any run of `submit` calls on a queue built by
`CommandQueue::new(N)`, the write index equals `k mod N` where `k` is
the number of *successful* calls, regardless of failed calls interleaved
among them.  The job ids of the successful calls are `1, 2, …, k` in
order when *no* call failed and fewer than `2^32` calls were made; with
a failed call interleaved they need not be (the counterexample shows a
run whose single successful call returns id 2). -/
theorem C5_submit_sequence (N : Nat) (q0 qf : CommandQueue)
    (reqs : List SubmitReq) (ids : List Nat)
    (hnew : CommandQueue.new N = .ok q0)
    (hrun : runSubmits q0 reqs = (ids, qf)) :
    qf.write_idx = ids.length % N ∧
    ids.length ≤ reqs.length ∧
    (ids.length = reqs.length → reqs.length < U32 →
      ids = (List.range reqs.length).map (fun i => i + 1)) := by
  have h0 : 0 < N := by
    by_contra hn
    have hN : N = 0 := by omega
    subst hN
    simp [CommandQueue.new] at hnew
  have hsz : N * CMD_DESC_SIZE < USIZE := by
    by_contra hbig
    unfold CommandQueue.new at hnew
    rw [if_neg (by omega), if_pos (by omega)] at hnew
    simp at hnew
  have heq := CommandQueue_new_eq N h0 hsz
  rw [heq] at hnew
  injection hnew with hq0
  subst hq0
  have hwidx := runSubmits_widx reqs
    { ring := { size := alignUp (N * CMD_DESC_SIZE) }, write_idx := 0, capacity := N, next_job_id := 1 }
    ids qf h0 h0 hrun
  have hlen := runSubmits_length_le reqs
    { ring := { size := alignUp (N * CMD_DESC_SIZE) }, write_idx := 0, capacity := N, next_job_id := 1 }
    ids qf hrun
  refine ⟨?_, hlen, ?_⟩
  · rw [hwidx.1]
    show (0 + ids.length) % N = ids.length % N
    rw [Nat.zero_add]
  · intro hfull hU
    have hids := runSubmits_ids reqs
      { ring := { size := alignUp (N * CMD_DESC_SIZE) }, write_idx := 0, capacity := N, next_job_id := 1 }
      ids qf (by show (1 : Nat) < U32; decide) hrun hfull
    rw [hids]
    apply List.map_congr_left
    intro i hi
    rw [List.mem_range] at hi
    show (1 + i) % U32 = i + 1
    simp only [U32] at hU ⊢
    rw [Nat.mod_eq_of_lt (by omega)]
    omega

/-- Witness for C5: on `CommandQueue::new(4)`, two submissions that both
succeed yield write index `2 mod 4` and the job ids `[1, 2]`. -/
theorem C5_witness :
    ({ ring := { size := 4096 }, write_idx := 2, capacity := 4, next_job_id := 3 }
        : CommandQueue).write_idx = ([1, 2] : List Nat).length % 4 ∧
    ([1, 2] : List Nat).length ≤ 2 ∧
    ([1, 2] : List Nat) = (List.range 2).map (fun i => i + 1) :=
  have h := C5_submit_sequence 4 qSmall
    { ring := { size := 4096 }, write_idx := 2, capacity := 4, next_job_id := 3 }
    [{ model := 0, input := 0, output := 0 }, { model := 1, input := 2, output := 3 }]
    [1, 2] rfl rfl
  ⟨h.1, h.2.1, h.2.2 rfl (by decide)⟩

/-- Counterexample to C5 as stated: on `CommandQueue::new(4)`, a failed
submit (model length `2^32`) followed by one successful submit leaves
`k = 1` successful call, yet the successful call returns job id 2, not
1 — the ids of the successful calls are not `1, …, k` when failed calls
are interleaved. -/
theorem C5_counterexample :
    CommandQueue.new 4 = .ok qSmall ∧
    runSubmits qSmall
        [{ model := U32, input := 0, output := 0 }, { model := 0, input := 0, output := 0 }] =
      ([2], { ring := { size := 4096 }, write_idx := 1, capacity := 4, next_job_id := 3 }) ∧
    ([2] : List Nat) ≠ [1] := by
  exact ⟨rfl, rfl, by decide⟩

end EVA
